import Mathlib

/-!
Shallow embedding of the Sherlock roster-reconciliation engine (src/app.py).

A table is an ordered list of column headers together with an ordered list of
rows; each row is a list of cells aligned with the headers.  Cells carry the
dynamic typing of the host's dataframe values: a missing value (NaN), a text
value, or a numeric value.
-/

namespace Sherlock

inductive Cell where
  | null
  | str (s : String)
  | num (n : Int)
  deriving DecidableEq, Repr

structure Table where
  headers : List String
  rows : List (List Cell)
  deriving DecidableEq, Repr

/-- Constant NAME_COL from app.py. -/
def NAME_COL : String := "Full Name As Per NRIC"

/-- Constant SERIAL_COL from app.py. -/
def SERIAL_COL : String := "S/N"

/-- Constant SERIAL_CANDIDATES from app.py. -/
def SERIAL_CANDIDATES : List String :=
  ["S/N", "SN", "SNO", "S. NO", "S. NO.", "S NO", "S NO.", "NO", "NO.",
   "INDEX", "SERIAL", "SERIAL NO", "SERIAL NO."]

/-- ASCII whitespace as recognized by the host language's strip and
whitespace-class regex. -/
def isPySpace (c : Char) : Bool :=
  c = ' ' || c = '\t' || c = '\n' || c = '\r' || c = '\x0b' || c = '\x0c'

/-- Leading/trailing whitespace removal: the host's str.strip(). -/
def pyStrip (s : String) : String :=
  ⟨((s.data.dropWhile isPySpace).reverse.dropWhile isPySpace).reverse⟩

/-- Replace every maximal run of whitespace by a single space; the boolean
records whether the previous character was part of a whitespace run. -/
def collapseWSAux : List Char → Bool → List Char
  | [], _ => []
  | c :: cs, inRun =>
    if isPySpace c then
      if inRun then collapseWSAux cs true
      else ' ' :: collapseWSAux cs true
    else c :: collapseWSAux cs false

/-- The regex substitution replacing each whitespace run by one space. -/
def collapseWS (s : String) : String := ⟨collapseWSAux s.data false⟩

/-- Uppercasing: the host's str.upper() restricted to the simple case map. -/
def pyUpper (s : String) : String := ⟨s.data.map Char.toUpper⟩

/-- Stringification performed by astype(str) on a dataframe column: a missing
value (NaN) is stringified to "nan"; it does NOT stay missing. -/
def pyAstypeStr : Cell → String
  | Cell.null => "nan"
  | Cell.str s => s
  | Cell.num n => toString n

/-- astype(str) at the cell level: every cell becomes a text cell. -/
def cellAstype (c : Cell) : Cell := Cell.str (pyAstypeStr c)

/-- fillna(v) at the cell level: replaces a missing cell by the text v and
leaves every other cell unchanged. -/
def cellFillna (v : String) : Cell → Cell
  | Cell.null => Cell.str v
  | c => c

/-- The text content of a cell. -/
def cellText : Cell → String
  | Cell.null => ""
  | Cell.str s => s
  | Cell.num n => toString n

/-- normalize_name from app.py, at the level of one cell: astype(str), then
fillna(""), then strip, then collapse whitespace runs, then uppercase.
The fillna("") step mirrors the source faithfully; after astype(str) no cell
is missing anymore, so it never fires. -/
def normalize_name (c : Cell) : String :=
  pyUpper (collapseWS (pyStrip (cellText (cellFillna ("") (cellAstype c)))))

/-- The header test used by detect_serial_col and add_serial_number:
str(c).strip().upper() is a member of SERIAL_CANDIDATES. -/
def isSerialHeader (h : String) : Bool :=
  SERIAL_CANDIDATES.contains (pyUpper (pyStrip h))

/-- detect_serial_col from app.py: the first column whose header matches the
serial alias set, returned as a column index (label lookup in the host
resolves to the first matching column). -/
def detect_serial_col (t : Table) : Option Nat :=
  t.headers.findIdx? isSerialHeader

/-- A decimal digit. -/
def isDigitChar (c : Char) : Bool := '0' ≤ c && c ≤ '9'

/-- Remove one optional leading sign. -/
def dropSign : List Char → List Char
  | '+' :: cs => cs
  | '-' :: cs => cs
  | cs => cs

/-- An unsigned decimal mantissa: digits, optionally digits '.' digits where
at least one digit appears on some side of the point. -/
def isMantissa (cs : List Char) : Bool :=
  let intPart := cs.takeWhile isDigitChar
  let rest := cs.dropWhile isDigitChar
  match rest with
  | [] => !intPart.isEmpty
  | '.' :: frac =>
    let fracDigits := frac.takeWhile isDigitChar
    let rest2 := frac.dropWhile isDigitChar
    rest2.isEmpty && (!intPart.isEmpty || !fracDigits.isEmpty)
  | _ => false

/-- An exponent tail: optional sign then one or more digits. -/
def isExpTail (cs : List Char) : Bool :=
  let ds := dropSign cs
  !ds.isEmpty && ds.all isDigitChar

/-- Whether to_numeric(·, errors="coerce") succeeds on a text value: an
optionally signed decimal literal with optional scientific exponent,
surrounded by optional whitespace. -/
def isNumericString (s : String) : Bool :=
  let cs := dropSign (pyStrip s).data
  let front := cs.takeWhile (fun c => !(c = 'e' || c = 'E'))
  let rest := cs.dropWhile (fun c => !(c = 'e' || c = 'E'))
  match rest with
  | [] => isMantissa front
  | _ :: tail => isMantissa front && isExpTail tail

/-- Whether to_numeric(cell, errors="coerce") yields a non-missing number:
a missing cell stays missing (notna false), a numeric cell succeeds, a text
cell succeeds iff it reads as a numeric literal. -/
def cellToNumericOk : Cell → Bool
  | Cell.null => false
  | Cell.num _ => true
  | Cell.str s => isNumericString s

/-- Cell lookup in a row by column position; absent positions read as
missing, matching the dataframe's NaN padding. -/
def getCell (r : List Cell) (i : Nat) : Cell := r.getD i Cell.null

/-- filter_real_rows from app.py: if no serial column is detected the table
is returned as-is (a copy in the source); otherwise only the rows whose
serial cell coerces to a number are kept, in order. -/
def filter_real_rows (t : Table) : Table :=
  match detect_serial_col t with
  | none => t
  | some i => { headers := t.headers, rows := t.rows.filter (fun r => cellToNumericOk (getCell r i)) }

/-- Index of the identity column NAME_COL (first matching header), defaulting
to 0; only used on tables that passed validation, where the column exists. -/
def nameIdxD (t : Table) : Nat := (t.headers.findIdx? (· == NAME_COL)).getD 0

/-- The NormalizedKey of one row of a table. -/
def rowKey (t : Table) (r : List Cell) : String := normalize_name (getCell r (nameIdxD t))

/-- The normalized identity column of a table (a_norm / b_norm in app.py). -/
def normKeys (t : Table) : List String := t.rows.map (rowKey t)

/-- count_real_records from app.py: with a serial column, the number of rows
whose serial cell coerces; otherwise the number of rows with a non-empty
normalized name when NAME_COL exists, else the row count. -/
def count_real_records (t : Table) : Nat :=
  match detect_serial_col t with
  | some i => t.rows.countP (fun r => cellToNumericOk (getCell r i))
  | none =>
    if NAME_COL ∈ t.headers then
      t.rows.countP (fun r => rowKey t r != "")
    else t.rows.length

/-- Headers surviving add_serial_number's column drop. -/
def keepHeader (h : String) : Bool := !(isSerialHeader h)

/-- Remove from one row the cells of every column whose header matches the
serial alias set. -/
def dropSerialCells (headers : List String) (r : List Cell) : List Cell :=
  ((headers.zip r).filter (fun p => keepHeader p.1)).map Prod.snd

/-- Attach ordinals k, k+1, ... in front of the rows. -/
def attachSerial : Nat → List (List Cell) → List (List Cell)
  | _, [] => []
  | k, r :: rs => (Cell.num (Int.ofNat k) :: r) :: attachSerial (k + 1) rs

/-- add_serial_number from app.py: drop every serial-alias column, then
insert a fresh S/N column in first position holding 1..N. -/
def add_serial_number (t : Table) : Table :=
  { headers := SERIAL_COL :: t.headers.filter keepHeader,
    rows := attachSerial 1 (t.rows.map (dropSerialCells t.headers)) }

/-- The set of non-empty normalized keys of a table (a_set / b_set in
app.py); membership in the host's set coincides with list membership. -/
def keySet (t : Table) : List String := (normKeys t).filter (fun k => k != "")

/-- new_set from app.py: b_set minus a_set. -/
def new_set (a b : Table) : List String :=
  (keySet b).filter (fun k => !(keySet a).contains k)

/-- removed_set from app.py: a_set minus b_set. -/
def removed_set (a b : Table) : List String :=
  (keySet a).filter (fun k => !(keySet b).contains k)

/-- new_rows from app.py: the rows of table B whose key is in new_set. -/
def new_rows (a b : Table) : List (List Cell) :=
  b.rows.filter (fun r => (new_set a b).contains (rowKey b r))

/-- removed_rows from app.py: the rows of table A whose key is in
removed_set. -/
def removed_rows (a b : Table) : List (List Cell) :=
  a.rows.filter (fun r => (removed_set a b).contains (rowKey a r))

/-- Validation message for a table lacking the identity column. -/
def missingMsg (label : String) : String :=
  "Excel " ++ label ++ " is missing column: **" ++ NAME_COL ++ "**"

/-- The issues list of app.py: one message per table lacking NAME_COL,
table A checked first. -/
def validationIssues (a b : Table) : List String :=
  (if NAME_COL ∈ a.headers then [] else [missingMsg ("A")]) ++
  (if NAME_COL ∈ b.headers then [] else [missingMsg ("B")])

structure DiffResult where
  added : Table
  removed : Table
  deriving DecidableEq, Repr

/-- The comparison pipeline of app.py: filter both tables, validate, and on
success produce the re-indexed added/removed tables; a non-empty issues list
stops the run (st.stop) with no diff produced. -/
def runCompare (rawA rawB : Table) : Except (List String) DiffResult :=
  let a := filter_real_rows rawA
  let b := filter_real_rows rawB
  let issues := validationIssues a b
  if issues.isEmpty then
    Except.ok
      { added := add_serial_number { headers := b.headers, rows := new_rows a b },
        removed := add_serial_number { headers := a.headers, rows := removed_rows a b } }
  else Except.error issues

/-- Rows of the filtered table B whose identity also occurs in table A
(the spec's unchanged-in-B rows: NormalizedKey present in both key sets). -/
def unchangedB (a b : Table) : List (List Cell) :=
  b.rows.filter (fun r => (keySet a).contains (rowKey b r) && (keySet b).contains (rowKey b r))

/-- Rows of the filtered table A whose identity also occurs in table B. -/
def unchangedA (a b : Table) : List (List Cell) :=
  a.rows.filter (fun r => (keySet a).contains (rowKey a r) && (keySet b).contains (rowKey a r))

/-! Concrete tables used to instantiate the theorems. -/

/-- Baseline roster of the spec's scenario 1. -/
def exTableA : Table :=
  { headers := [SERIAL_COL, NAME_COL],
    rows := [[Cell.num 1, Cell.str ("Alice Tan")], [Cell.num 2, Cell.str ("Bob Lee")]] }

/-- Current roster of the spec's scenario 1. -/
def exTableB : Table :=
  { headers := [SERIAL_COL, NAME_COL],
    rows := [[Cell.num 1, Cell.str ("ALICE TAN")], [Cell.num 2, Cell.str ("Carol Ng")]] }

/-- A table whose last row is a footer with a non-numeric serial cell. -/
def footerTable : Table :=
  { headers := [SERIAL_COL, NAME_COL],
    rows := [[Cell.num 1, Cell.str ("a")], [Cell.num 2, Cell.str ("b")],
             [Cell.str ("Total"), Cell.str ("c")]] }

/-- A table with a serial column in which every serial cell fails coercion. -/
def allFooterTable : Table :=
  { headers := [SERIAL_COL, NAME_COL],
    rows := [[Cell.str ("Total"), Cell.str ("c")]] }

/-- A table without any serial-alias column. -/
def plainTable : Table := { headers := [NAME_COL], rows := [[Cell.str ("x")]] }

/-- A table lacking the identity column NAME_COL. -/
def noNameTable : Table := { headers := ["Name"], rows := [] }

/-- A baseline table carrying the same identity twice under different raw
spellings (both normalize to the same key). -/
def dupATable : Table :=
  { headers := [NAME_COL], rows := [[Cell.str ("Bob Lee")], [Cell.str ("Bob   LEE")]] }

/-- A current table with a single unrelated identity. -/
def carolTable : Table := { headers := [NAME_COL], rows := [[Cell.str ("Carol Ng")]] }

/-- A well-formed table with zero data rows. -/
def emptyNameTable : Table := { headers := [NAME_COL], rows := [] }

/-- A table whose single identity cell is missing (NaN). -/
def nullNameTable : Table := { headers := [NAME_COL], rows := [[Cell.null]] }

/-- An empty baseline table. -/
def blankRowTableA : Table := { headers := [NAME_COL], rows := [] }

/-- A current table whose single identity cell is whitespace only, so its
NormalizedKey is empty. -/
def blankRowTableB : Table := { headers := [NAME_COL], rows := [[Cell.str ("   ")]] }

/-- A table with an existing serial-alias column holding junk ordinals. -/
def junkSerialTable : Table :=
  { headers := ["SN", NAME_COL], rows := [[Cell.str ("7"), Cell.str ("x")], [Cell.null, Cell.str ("y")]] }

end Sherlock

namespace Sherlock

/-! Helper lemmas. -/

theorem mem_keySet {t : Table} {k : String} :
    k ∈ keySet t ↔ k ≠ "" ∧ k ∈ normKeys t := by
  simp [keySet, and_comm]

theorem mem_new_set {a b : Table} {k : String} :
    k ∈ new_set a b ↔ k ∈ keySet b ∧ k ∉ keySet a := by
  simp [new_set]

theorem mem_removed_set {a b : Table} {k : String} :
    k ∈ removed_set a b ↔ k ∈ keySet a ∧ k ∉ keySet b := by
  simp [removed_set]

theorem headers_filter_real_rows (t : Table) :
    (filter_real_rows t).headers = t.headers := by
  unfold filter_real_rows
  cases detect_serial_col t <;> simp

theorem attachSerial_length (k : Nat) (rs : List (List Cell)) :
    (attachSerial k rs).length = rs.length := by
  induction rs generalizing k with
  | nil => rfl
  | cons r rs ih => simp [attachSerial, ih]

theorem attachSerial_map_headq (k : Nat) (rs : List (List Cell)) :
    (attachSerial k rs).map List.head? =
      (List.range rs.length).map (fun i => some (Cell.num (Int.ofNat (k + i)))) := by
  induction rs generalizing k with
  | nil => rfl
  | cons r rs ih =>
    simp [attachSerial, List.range_succ_eq_map, ih (k + 1)]
    intro a _
    omega

theorem attachSerial_map_tail (k : Nat) (rs : List (List Cell)) :
    (attachSerial k rs).map List.tail = rs := by
  induction rs generalizing k with
  | nil => rfl
  | cons r rs ih => simp [attachSerial, ih (k + 1)]

theorem filter_partition_length {α : Type} (l : List α) (p q r : α → Bool)
    (h : ∀ x ∈ l, r x = (p x || q x) ∧ ¬(p x = true ∧ q x = true)) :
    (l.filter p).length + (l.filter q).length = (l.filter r).length := by
  induction l with
  | nil => rfl
  | cons x xs ih =>
    have hx := h x (by simp)
    have hxs := ih (fun y hy => h y (by simp [hy]))
    by_cases hp : p x = true
    · have hq : q x = false := by
        rcases Bool.eq_false_or_eq_true (q x) with h1 | h1
        · exact absurd ⟨hp, h1⟩ hx.2
        · exact h1
      have hr : r x = true := by rw [hx.1, hp]; rfl
      simp [List.filter_cons, hp, hq, hr, hxs]
      omega
    · have hp' : p x = false := by simpa using hp
      by_cases hq : q x = true
      · have hr : r x = true := by rw [hx.1, hp', hq]; rfl
        simp [List.filter_cons, hp', hq, hr, hxs]
        omega
      · have hq' : q x = false := by simpa using hq
        have hr : r x = false := by rw [hx.1, hp', hq']; rfl
        simp [List.filter_cons, hp', hq', hr, hxs]

/-! Claim theorems. -/

/-- C1: Set Reconciler row selection.  With keysA and keysB the sets of
non-empty NormalizedKeys of tables A and B, the added collection is exactly
the rows of B whose key lies in keysB minus keysA and the removed collection
exactly the rows of A whose key lies in keysA minus keysB; every occurrence
of such a key is selected (the two filter characterizations preserve
duplicate rows), no row whose key occurs in both tables enters either
collection, and the selected rows keep the relative order of their source
table (sublist). -/
theorem C1_set_reconciler_row_selection (a b : Table) :
    new_rows a b = b.rows.filter (fun r => decide (rowKey b r ∈ keySet b ∧ rowKey b r ∉ keySet a))
    ∧ removed_rows a b = a.rows.filter (fun r => decide (rowKey a r ∈ keySet a ∧ rowKey a r ∉ keySet b))
    ∧ (new_rows a b).Sublist b.rows
    ∧ (removed_rows a b).Sublist a.rows
    ∧ (∀ r, r ∈ new_rows a b ↔ r ∈ b.rows ∧ rowKey b r ≠ "" ∧ rowKey b r ∉ keySet a)
    ∧ (∀ r, r ∈ removed_rows a b ↔ r ∈ a.rows ∧ rowKey a r ≠ "" ∧ rowKey a r ∉ keySet b)
    ∧ (∀ r ∈ b.rows, rowKey b r ∈ keySet a → r ∉ new_rows a b)
    ∧ (∀ r ∈ a.rows, rowKey a r ∈ keySet b → r ∉ removed_rows a b) := by
  refine ⟨?_, ?_, List.filter_sublist _, List.filter_sublist _, ?_, ?_, ?_, ?_⟩
  · apply List.filter_congr
    intro r hr
    rw [Bool.eq_iff_iff]
    simp [mem_new_set]
  · apply List.filter_congr
    intro r hr
    rw [Bool.eq_iff_iff]
    simp [mem_removed_set]
  · intro r
    constructor
    · intro h
      rcases List.mem_filter.mp h with ⟨hb, hc⟩
      have hmem : rowKey b r ∈ new_set a b := by simpa using hc
      rcases mem_new_set.mp hmem with ⟨hkb, hka⟩
      exact ⟨hb, (mem_keySet.mp hkb).1, hka⟩
    · rintro ⟨hb, hne, hna⟩
      refine List.mem_filter.mpr ⟨hb, ?_⟩
      have hmem : rowKey b r ∈ normKeys b := List.mem_map_of_mem _ hb
      have hns : rowKey b r ∈ new_set a b := mem_new_set.mpr ⟨mem_keySet.mpr ⟨hne, hmem⟩, hna⟩
      simpa using hns
  · intro r
    constructor
    · intro h
      rcases List.mem_filter.mp h with ⟨ha, hc⟩
      have hmem : rowKey a r ∈ removed_set a b := by simpa using hc
      rcases mem_removed_set.mp hmem with ⟨hka, hkb⟩
      exact ⟨ha, (mem_keySet.mp hka).1, hkb⟩
    · rintro ⟨ha, hne, hnb⟩
      refine List.mem_filter.mpr ⟨ha, ?_⟩
      have hmem : rowKey a r ∈ normKeys a := List.mem_map_of_mem _ ha
      have hrs : rowKey a r ∈ removed_set a b := mem_removed_set.mpr ⟨mem_keySet.mpr ⟨hne, hmem⟩, hnb⟩
      simpa using hrs
  · intro r hb hka h
    rcases List.mem_filter.mp h with ⟨_, hc⟩
    have hmem : rowKey b r ∈ new_set a b := by simpa using hc
    exact (mem_new_set.mp hmem).2 hka
  · intro r ha hkb h
    rcases List.mem_filter.mp h with ⟨_, hc⟩
    have hmem : rowKey a r ∈ removed_set a b := by simpa using hc
    exact (mem_removed_set.mp hmem).2 hkb

/-- C1 witness: on scenario 1, the ALICE TAN row of B is excluded because the
key occurs in both tables; on scenario 2, both duplicate Bob Lee rows of A
land in removed, in source order. -/
theorem C1_set_reconciler_row_selection_witness :
    [Cell.num 1, Cell.str ("ALICE TAN")] ∉ new_rows exTableA exTableB
    ∧ removed_rows dupATable carolTable = [[Cell.str ("Bob Lee")], [Cell.str ("Bob   LEE")]] := by
  constructor
  · exact (C1_set_reconciler_row_selection exTableA exTableB).2.2.2.2.2.2.1 _ (by decide) (by decide)
  · rw [(C1_set_reconciler_row_selection dupATable carolTable).2.1]
    decide

end Sherlock

namespace Sherlock

/-- C2: the claim says a missing/null identity value normalizes to the empty
string; the code instead yields "NAN", because astype(str) stringifies a
missing value to "nan" before the fillna("") step can replace it, so the
null-keyed row even enters the key set.  This theorem evaluates the code at
the failing input. -/
theorem C2_normalize_null_value :
    normalize_name Cell.null = "NAN"
    ∧ normalize_name Cell.null ≠ ""
    ∧ keySet nullNameTable = ["NAN"] := by
  refine ⟨by decide, by decide, by decide⟩

/-- C3: validation failure.  Filtering does not change the header row; the
issues list is empty iff the identity column is present in both tables; the
message naming table A is raised iff A lacks the column, likewise for B, and
no other message ever appears; a non-empty issues list makes the run stop
with exactly those errors and no diff result, while an empty one lets the
comparison produce a result. -/
theorem C3_validation_missing_column (rawA rawB : Table) :
    (filter_real_rows rawA).headers = rawA.headers
    ∧ (filter_real_rows rawB).headers = rawB.headers
    ∧ (validationIssues (filter_real_rows rawA) (filter_real_rows rawB) = [] ↔
        NAME_COL ∈ rawA.headers ∧ NAME_COL ∈ rawB.headers)
    ∧ (missingMsg ("A") ∈ validationIssues (filter_real_rows rawA) (filter_real_rows rawB) ↔
        NAME_COL ∉ rawA.headers)
    ∧ (missingMsg ("B") ∈ validationIssues (filter_real_rows rawA) (filter_real_rows rawB) ↔
        NAME_COL ∉ rawB.headers)
    ∧ (∀ m ∈ validationIssues (filter_real_rows rawA) (filter_real_rows rawB),
        m = missingMsg ("A") ∨ m = missingMsg ("B"))
    ∧ (validationIssues (filter_real_rows rawA) (filter_real_rows rawB) ≠ [] →
        runCompare rawA rawB =
          Except.error (validationIssues (filter_real_rows rawA) (filter_real_rows rawB)))
    ∧ (validationIssues (filter_real_rows rawA) (filter_real_rows rawB) = [] →
        ∃ d, runCompare rawA rawB = Except.ok d) := by
  have hA := headers_filter_real_rows rawA
  have hB := headers_filter_real_rows rawB
  have hAB : missingMsg ("A") ≠ missingMsg ("B") := by decide
  refine ⟨hA, hB, ?_, ?_, ?_, ?_, ?_, ?_⟩
  · by_cases h1 : NAME_COL ∈ rawA.headers <;> by_cases h2 : NAME_COL ∈ rawB.headers <;>
      simp [validationIssues, hA, hB, h1, h2]
  · by_cases h1 : NAME_COL ∈ rawA.headers <;> by_cases h2 : NAME_COL ∈ rawB.headers <;>
      simp [validationIssues, hA, hB, h1, h2, hAB]
  · by_cases h1 : NAME_COL ∈ rawA.headers <;> by_cases h2 : NAME_COL ∈ rawB.headers <;>
      simp [validationIssues, hA, hB, h1, h2, hAB, Ne.symm hAB]
  · intro m hm
    by_cases h1 : NAME_COL ∈ rawA.headers <;> by_cases h2 : NAME_COL ∈ rawB.headers <;>
      simp [validationIssues, hA, hB, h1, h2] at hm <;> tauto
  · intro hne
    have hfalse : (validationIssues (filter_real_rows rawA) (filter_real_rows rawB)).isEmpty = false := by
      simpa [List.isEmpty_iff] using hne
    simp [runCompare, hfalse]
  · intro heq
    have htrue : (validationIssues (filter_real_rows rawA) (filter_real_rows rawB)).isEmpty = true := by
      simpa [List.isEmpty_iff] using heq
    simp only [runCompare, htrue, if_true]
    exact ⟨_, rfl⟩

/-- C3 witness: a current table lacking the identity column aborts the run
with the error naming Excel B, and a valid pair yields a diff result. -/
theorem C3_validation_missing_column_witness :
    runCompare exTableA noNameTable = Except.error [missingMsg ("B")]
    ∧ ∃ d, runCompare exTableA exTableB = Except.ok d := by
  constructor
  · have h := (C3_validation_missing_column exTableA noNameTable).2.2.2.2.2.2.1 (by decide)
    have hv : validationIssues (filter_real_rows exTableA) (filter_real_rows noNameTable)
        = [missingMsg ("B")] := by decide
    rw [h, hv]
  · exact (C3_validation_missing_column exTableA exTableB).2.2.2.2.2.2.2 (by decide)

/-- C4: Row Filter contract.  Without a detected serial column the table is
returned unchanged; with one, the result keeps the headers and exactly the
rows whose serial cell coerces to a number, in original order (sublist); if
every row fails coercion the rows come out empty (still a table, no error
path exists). -/
theorem C4_row_filter_contract (t : Table) :
    (detect_serial_col t = none → filter_real_rows t = t)
    ∧ (∀ i, detect_serial_col t = some i →
        (filter_real_rows t).headers = t.headers
        ∧ (filter_real_rows t).rows = t.rows.filter (fun r => cellToNumericOk (getCell r i))
        ∧ (filter_real_rows t).rows.Sublist t.rows
        ∧ ((∀ r ∈ t.rows, cellToNumericOk (getCell r i) = false) →
            (filter_real_rows t).rows = [])) := by
  constructor
  · intro h
    simp [filter_real_rows, h]
  · intro i h
    refine ⟨headers_filter_real_rows t, by simp [filter_real_rows, h], ?_, ?_⟩
    · simp only [filter_real_rows, h]
      exact List.filter_sublist _
    · intro hall
      simp only [filter_real_rows, h]
      exact List.filter_eq_nil_iff.mpr (fun r hr => by simp [hall r hr])

/-- C4 witness: the footer row is dropped, a serial-free table passes through
unchanged, and a table whose every serial cell fails coercion filters to zero
rows. -/
theorem C4_row_filter_contract_witness :
    (filter_real_rows footerTable).rows = [[Cell.num 1, Cell.str ("a")], [Cell.num 2, Cell.str ("b")]]
    ∧ filter_real_rows plainTable = plainTable
    ∧ (filter_real_rows allFooterTable).rows = [] := by
  refine ⟨?_, ?_, ?_⟩
  · rw [((C4_row_filter_contract footerTable).2 0 (by decide)).2.1]
    decide
  · exact (C4_row_filter_contract plainTable).1 (by decide)
  · exact ((C4_row_filter_contract allFooterTable).2 0 (by decide)).2.2.2 (by decide)

/-- C5: Result Indexer contract.  The result's header row is a fresh S/N
column followed by the non-serial headers in original order; no serial-alias
header survives past position 0; the row count is preserved; the first cell
of the rows reads exactly 1, 2, ..., N in order regardless of the original
ordinals; the remaining cells are the original rows with serial columns
dropped; and a zero-row input yields a zero-row table whose header is still
present.  (The source operates on a reset copy, never the input itself;
in this pure embedding immutability is inherent.) -/
theorem C5_result_indexer_contract (t : Table) :
    (add_serial_number t).headers = SERIAL_COL :: t.headers.filter keepHeader
    ∧ (add_serial_number t).headers.head? = some SERIAL_COL
    ∧ (∀ h ∈ (add_serial_number t).headers.tail, isSerialHeader h = false)
    ∧ (add_serial_number t).rows.length = t.rows.length
    ∧ (add_serial_number t).rows.map List.head? =
        (List.range t.rows.length).map (fun i => some (Cell.num (Int.ofNat (1 + i))))
    ∧ (add_serial_number t).rows.map List.tail = t.rows.map (dropSerialCells t.headers)
    ∧ (t.rows = [] → (add_serial_number t).rows = []) := by
  refine ⟨rfl, rfl, ?_, ?_, ?_, ?_, ?_⟩
  · intro h hh
    simp only [add_serial_number, List.tail_cons] at hh
    have hk := (List.mem_filter.mp hh).2
    simpa [keepHeader] using hk
  · simp [add_serial_number, attachSerial_length]
  · simp [add_serial_number, attachSerial_map_headq]
  · simp [add_serial_number, attachSerial_map_tail]
  · intro h
    simp [add_serial_number, h, attachSerial]

/-- C5 witness: the surviving identity header is not serial-like, and the
zero-row table keeps its header while producing zero rows. -/
theorem C5_result_indexer_contract_witness :
    isSerialHeader NAME_COL = false
    ∧ (add_serial_number emptyNameTable).rows = [] := by
  constructor
  · exact (C5_result_indexer_contract junkSerialTable).2.2.1 NAME_COL (by decide)
  · exact (C5_result_indexer_contract emptyNameTable).2.2.2.2.2.2 rfl

/-- C6: the added key set and the removed key set are disjoint, and an added
row never shares its identity with a removed row. -/
theorem C6_diff_sets_disjoint (a b : Table) :
    (∀ k, k ∈ new_set a b → k ∉ removed_set a b)
    ∧ (∀ rb ∈ new_rows a b, ∀ ra ∈ removed_rows a b, rowKey b rb ≠ rowKey a ra) := by
  constructor
  · intro k hk hr
    exact (mem_new_set.mp hk).2 (mem_removed_set.mp hr).1
  · intro rb hb ra ha heq
    rcases List.mem_filter.mp hb with ⟨_, hcb⟩
    rcases List.mem_filter.mp ha with ⟨_, hca⟩
    have hnb : rowKey b rb ∈ new_set a b := by simpa using hcb
    have hna : rowKey a ra ∈ removed_set a b := by simpa using hca
    rw [heq] at hnb
    exact (mem_new_set.mp hnb).2 (mem_removed_set.mp hna).1

/-- C6 witness: on scenario 1 the added Carol Ng row and the removed Bob Lee
row carry different identities. -/
theorem C6_diff_sets_disjoint_witness :
    rowKey exTableB [Cell.num 2, Cell.str ("Carol Ng")]
      ≠ rowKey exTableA [Cell.num 2, Cell.str ("Bob Lee")] :=
  (C6_diff_sets_disjoint exTableA exTableB).2 _ (by decide) _ (by decide)

end Sherlock

namespace Sherlock

/-- C7 counterexample: the row-count law as stated fails.  Take a filtered
baseline with no rows and a filtered current table whose single identity cell
is whitespace only: its NormalizedKey is empty, so the row is neither added
nor unchanged, and added + unchanged-in-B = 0 while filtered B has 1 row.
Both tables are fixed points of the row filter, hence valid filtered
inputs. -/
theorem C7_row_count_law_cex :
    filter_real_rows blankRowTableA = blankRowTableA
    ∧ filter_real_rows blankRowTableB = blankRowTableB
    ∧ ¬ ((new_rows blankRowTableA blankRowTableB).length
          + (unchangedB blankRowTableA blankRowTableB).length
          = blankRowTableB.rows.length) := by
  refine ⟨by decide, by decide, by decide⟩

/-- C7 amended: the number of added rows plus the number of rows of table B
whose identity occurs in both key sets equals the number of rows of table B
whose NormalizedKey is non-empty (rows with an empty key are excluded from
all set operations and counted by neither side); the analogous law holds for
table A and removed. -/
theorem C7_row_count_law_amended (a b : Table) :
    (new_rows a b).length + (unchangedB a b).length
      = (b.rows.filter (fun r => rowKey b r != "")).length
    ∧ (removed_rows a b).length + (unchangedA a b).length
      = (a.rows.filter (fun r => rowKey a r != "")).length := by
  constructor
  · simp only [new_rows, unchangedB]
    apply filter_partition_length
    intro r hr
    have hmem : rowKey b r ∈ normKeys b := List.mem_map_of_mem _ hr
    constructor
    · rw [Bool.eq_iff_iff]
      simp only [Bool.or_eq_true, Bool.and_eq_true, bne_iff_ne]
      constructor
      · intro hne
        by_cases hka : rowKey b r ∈ keySet a
        · right
          constructor
          · simpa using hka
          · have hkb : rowKey b r ∈ keySet b := mem_keySet.mpr ⟨hne, hmem⟩
            simpa using hkb
        · left
          have hnsm : rowKey b r ∈ new_set a b :=
            mem_new_set.mpr ⟨mem_keySet.mpr ⟨hne, hmem⟩, hka⟩
          simpa using hnsm
      · intro h
        rcases h with h | h
        · have hns : rowKey b r ∈ new_set a b := by simpa using h
          exact (mem_keySet.mp (mem_new_set.mp hns).1).1
        · have hkb : rowKey b r ∈ keySet b := by simpa using h.2
          exact (mem_keySet.mp hkb).1
    · rintro ⟨h1, h2⟩
      have hns : rowKey b r ∈ new_set a b := by simpa using h1
      have hka : rowKey b r ∈ keySet a := by
        have hand := (Bool.and_eq_true _ _).mp h2
        simpa using hand.1
      exact (mem_new_set.mp hns).2 hka
  · simp only [removed_rows, unchangedA]
    apply filter_partition_length
    intro r hr
    have hmem : rowKey a r ∈ normKeys a := List.mem_map_of_mem _ hr
    constructor
    · rw [Bool.eq_iff_iff]
      simp only [Bool.or_eq_true, Bool.and_eq_true, bne_iff_ne]
      constructor
      · intro hne
        by_cases hkb : rowKey a r ∈ keySet b
        · right
          constructor
          · have hka : rowKey a r ∈ keySet a := mem_keySet.mpr ⟨hne, hmem⟩
            simpa using hka
          · simpa using hkb
        · left
          have hrsm : rowKey a r ∈ removed_set a b :=
            mem_removed_set.mpr ⟨mem_keySet.mpr ⟨hne, hmem⟩, hkb⟩
          simpa using hrsm
      · intro h
        rcases h with h | h
        · have hrs : rowKey a r ∈ removed_set a b := by simpa using h
          exact (mem_keySet.mp (mem_removed_set.mp hrs).1).1
        · have hka : rowKey a r ∈ keySet a := by simpa using h.1
          exact (mem_keySet.mp hka).1
    · rintro ⟨h1, h2⟩
      have hrs : rowKey a r ∈ removed_set a b := by simpa using h1
      have hkb : rowKey a r ∈ keySet b := by
        have hand := (Bool.and_eq_true _ _).mp h2
        simpa using hand.2
      exact (mem_removed_set.mp hrs).2 hkb

/-- C8: normalize_name is the composition stringify, then strip, then
collapse whitespace runs, then uppercase (the interleaved fillna("") never
fires), and on the claim's concrete examples both spellings of the name
normalize to ALICE TAN. -/
theorem C8_normalize_reference_definition :
    (∀ c : Cell, normalize_name c = pyUpper (collapseWS (pyStrip (pyAstypeStr c))))
    ∧ normalize_name (Cell.str ("  Alice   Tan ")) = "ALICE TAN"
    ∧ normalize_name (Cell.str ("ALICE TAN")) = "ALICE TAN" := by
  refine ⟨fun c => ?_, by decide, by decide⟩
  cases c <;> rfl

/-- C10: when a serial column is detected, count_real_records equals the
number of rows of filter_real_rows on the same table. -/
theorem C10_count_filter_consistency (t : Table) (i : Nat)
    (h : detect_serial_col t = some i) :
    count_real_records t = (filter_real_rows t).rows.length := by
  simp [count_real_records, filter_real_rows, h, List.countP_eq_length_filter]

/-- C10 witness: on the footer table the reported count and the filtered row
count agree, both being 2. -/
theorem C10_count_filter_consistency_witness :
    count_real_records footerTable = (filter_real_rows footerTable).rows.length
    ∧ count_real_records footerTable = 2 := by
  constructor
  · exact C10_count_filter_consistency footerTable 0 (by decide)
  · decide

end Sherlock
